import Mathlib

/-!
Verification of the CyberGit trending-repository dashboard.

The development shallowly embeds the checkpoint scheduler, cache layer,
scan orchestrator, favorites vault and candidate-validation pipeline of
the application.  JavaScript strings are modelled as lists of Unicode
scalars, machine timestamps as unbounded integers of milliseconds in a
uniform 24-hour-day local calendar, and the browser key-value storage as
an explicit record passed through each operation.
-/

/-- A JavaScript string, modelled as its list of characters. -/
abbrev Str := List Char

/-- Milliseconds per hour. -/
def msPerHour : Int := 3600000

/-- Milliseconds per day (`1000 * 3600 * 24` in the source). -/
def msPerDay : Int := 86400000

/-- `getLatestCheckpoint` from `src/App.tsx` (lines 31-48).  The source
builds `c1 = today 05:00` and `c2 = today 17:00` with `Date.setHours`;
in the uniform-day model the start of the current day is
`(now / msPerDay) * msPerDay` (integer division on `Int` rounds toward
negative infinity for a positive divisor, matching the calendar floor),
and `yesterday17` is one day earlier plus seventeen hours. -/
def getLatestCheckpoint (now : Int) : Int :=
  if now < (now / msPerDay) * msPerDay + 5 * msPerHour then
    (now / msPerDay) * msPerDay - msPerDay + 17 * msPerHour
  else if now < (now / msPerDay) * msPerDay + 17 * msPerHour then
    (now / msPerDay) * msPerDay + 5 * msPerHour
  else
    (now / msPerDay) * msPerDay + 17 * msPerHour

/-- A timestamp is a refresh boundary when its time of day is exactly
05:00 or 17:00. -/
def IsCheckpoint (t : Int) : Prop :=
  t % msPerDay = 5 * msPerHour ∨ t % msPerDay = 17 * msPerHour

instance (t : Int) : Decidable (IsCheckpoint t) := by
  unfold IsCheckpoint
  infer_instance

/-- The display tiers produced by `getStatusInfo` in the repository-card
component (`src/unnamed/part_001`, lines 47-137), identified by their
English labels FROZEN, SECURE, UNKNOWN, CRITICAL, ONLINE, STABLE, IDLE,
DECAY and OFFLINE. -/
inductive StatusTier
  | frozen
  | secure
  | unknown
  | critical
  | online
  | stable
  | idle
  | decay
  | offline
deriving DecidableEq

/-- `getStatusInfo` from `src/unnamed/part_001` (lines 47-137), with the
four fields it reads passed as arguments.  `daysSincePush` is
`Math.floor(diffMs / (1000 * 3600 * 24))`; integer division on `Int` by
the positive constant `msPerDay` is exactly that floor. -/
def getStatusInfo (archived rateLimited : Bool) (lastPushedAt : Option Int)
    (now : Int) : StatusTier :=
  if archived then .frozen
  else if rateLimited then .secure
  else
    match lastPushedAt with
    | none => .unknown
    | some t =>
      let d := (now - t) / msPerDay
      if d ≤ 3 then .critical
      else if d ≤ 7 then .online
      else if d ≤ 30 then .stable
      else if d ≤ 90 then .idle
      else if d ≤ 180 then .decay
      else .offline

/-- Modelled from the spec: the tier assignment as section 4.5 words it,
by priority archived, then rate-limited, then missing timestamp, and
otherwise bucketing the whole number of days since last push into the
ordered bands at most 3, at most 7, at most 30, at most 90, at most 180
and above 180. -/
def specStatusTier (archived rateLimited : Bool) (lastPushedAt : Option Int)
    (now : Int) : StatusTier :=
  if archived then .frozen
  else if rateLimited then .secure
  else
    match lastPushedAt with
    | none => .unknown
    | some t =>
      let d := (now - t) / msPerDay
      if d ≤ 3 then .critical
      else if 3 < d ∧ d ≤ 7 then .online
      else if 7 < d ∧ d ≤ 30 then .stable
      else if 30 < d ∧ d ≤ 90 then .idle
      else if 90 < d ∧ d ≤ 180 then .decay
      else .offline

/-- JavaScript truthiness of an optional boolean field: `undefined` is
falsy, otherwise the boolean itself decides. -/
def truthy : Option Bool → Bool
  | none => false
  | some b => b

/-- The time-window selector (`TimeFrame` in `src/types.ts`). -/
inductive TimeFrame
  | d3
  | d7
  | d14
deriving DecidableEq

/-- The application status enumeration (`AppStatus` in `src/types.ts`). -/
inductive AppStatus
  | idle
  | scanning
  | analyzing
  | complete
  | error
deriving DecidableEq

/-- A repository record (`Repo` in `src/types.ts` plus the enrichment
fields merged in by the validation pipeline; an `Option` field is `none`
when the corresponding key is absent on the JavaScript object). -/
structure Repo where
  name : Str
  url : Str
  description : Str
  starsTrend : Str
  tags : List Str
  lastPushedAt : Option Int := none
  isArchived : Option Bool := none
  starsCount : Option Nat := none
  language : Option Str := none
  isRateLimited : Option Bool := none
deriving DecidableEq

/-- `getStatusInfo` as called on an actual repository record: the
archived and rate-limited flags are read with JavaScript truthiness. -/
def getRepoStatus (repo : Repo) (now : Int) : StatusTier :=
  getStatusInfo (truthy repo.isArchived) (truthy repo.isRateLimited)
    repo.lastPushedAt now

/-- The result of `JSON.parse` on a per-window cache blob:
`corrupt` when parsing throws, otherwise a value whose `data` and
`timestamp` members may each be absent. -/
inductive CacheBlob
  | corrupt
  | parsed (data : Option (List Repo)) (timestamp : Option Int)
deriving DecidableEq

/-- The persisted favorites blob: `corrupt` when `JSON.parse` throws,
`legacyNames` for the old array-of-plain-strings shape, `records` for
the current array-of-full-records shape. -/
inductive FavBlob
  | corrupt
  | legacyNames (names : List Str)
  | records (repos : List Repo)
deriving DecidableEq

/-- The browser key-value storage, restricted to the keys the
application uses: one cache entry per time window
(`cybergit_cache_<frame>`) and the favorites vault
(`cybergit_fav_vault`).  `none` models an absent key. -/
structure Storage where
  cache3d : Option CacheBlob := none
  cache7d : Option CacheBlob := none
  cache14d : Option CacheBlob := none
  favVault : Option FavBlob := none
deriving DecidableEq

/-- Read the cache entry stored for a window. -/
def Storage.cacheGet (s : Storage) : TimeFrame → Option CacheBlob
  | .d3 => s.cache3d
  | .d7 => s.cache7d
  | .d14 => s.cache14d

/-- Overwrite the cache entry stored for a window. -/
def Storage.cacheSet (s : Storage) : TimeFrame → Option CacheBlob → Storage
  | .d3, b => { s with cache3d := b }
  | .d7, b => { s with cache7d := b }
  | .d14, b => { s with cache14d := b }

/-- Events appended to the system log, abstracting the Chinese log
strings of the source. -/
inductive LogEvent
  | cacheExpired (storedTs : Int)
  | cacheLoaded (frame : TimeFrame)
  | scanStarted (frame : TimeFrame) (forced : Bool)
  | scanCompleted (frame : TimeFrame) (count : Nat)
  | scanFailed (frame : TimeFrame)
  | staleRecovered
  | favRemoved (name : Str)
  | favAdded (name : Str)
deriving DecidableEq

/-- Outcome of `loadCache`: the returned value (`none` for a miss), the
storage afterwards, and the log lines emitted. -/
structure LoadResult where
  result : Option (List Repo × Int)
  storageAfter : Storage
  logs : List LogEvent
deriving DecidableEq

/-- `loadCache` from `src/App.tsx` (lines 50-69).  An absent key, a
parse failure (caught, `console.error`, no app log), a falsy `data`
member, a falsy `timestamp` member (absent or `0`), and a timestamp
older than the latest checkpoint all yield `null`; only the stale case
emits an app log line.  The storage is never written. -/
def loadCache (storage : Storage) (now : Int) (frame : TimeFrame) : LoadResult :=
  match storage.cacheGet frame with
  | none => ⟨none, storage, []⟩
  | some .corrupt => ⟨none, storage, []⟩
  | some (.parsed data timestamp) =>
    match data, timestamp with
    | some d, some ts =>
      if ts = 0 then ⟨none, storage, []⟩
      else if ts < getLatestCheckpoint now then ⟨none, storage, [LogEvent.cacheExpired ts]⟩
      else ⟨some (d, ts), storage, []⟩
    | _, _ => ⟨none, storage, []⟩

/-- The mutable client state touched by the scan orchestrator in
`src/App.tsx`: the active-window pointer (the `activeTab` state and the
`activeTabRef` ref are always assigned together, so one field models
both), the displayed repository list, the status, the last-updated
badge, the storage and the log. -/
structure AppState where
  activeTab : TimeFrame
  repos : List Repo
  status : AppStatus
  lastUpdated : Option Int
  storage : Storage
  logs : List LogEvent
deriving DecidableEq

/-- `saveCache` from `src/App.tsx` (lines 71-77): write the entry under
the window key and refresh the badge when the window is active. -/
def saveCache (frame : TimeFrame) (data : List Repo) (now : Int)
    (s : AppState) : AppState :=
  let s1 := { s with storage := s.storage.cacheSet frame (some (.parsed (some data) (some now))) }
  if s1.activeTab = frame then { s1 with lastUpdated := some now } else s1

/-- Whether the synchronous prefix of `handleScan` issued a network
request or was served from cache. -/
inductive StartOutcome
  | servedFromCache
  | requestIssued
deriving DecidableEq

/-- The synchronous prefix of `handleScan` (`src/App.tsx` lines 79-103),
up to the `await fetchTrendingRepos` suspension point: assign the
active-window pointer, consult the cache unless forced, and either
short-circuit to COMPLETE or clear the list and enter SCANNING. -/
def scanStart (frame : TimeFrame) (force : Bool) (now : Int)
    (s : AppState) : AppState × StartOutcome :=
  let s0 := { s with activeTab := frame }
  if force then
    ({ s0 with status := .scanning, repos := [],
               logs := s0.logs ++ [LogEvent.scanStarted frame true] }, StartOutcome.requestIssued)
  else
    match (loadCache s0.storage now frame).result with
    | some dts =>
      ({ s0 with repos := dts.1, lastUpdated := some dts.2, status := .complete,
                 logs := s0.logs ++ (loadCache s0.storage now frame).logs
                   ++ [LogEvent.cacheLoaded frame] }, StartOutcome.servedFromCache)
    | none =>
      ({ s0 with status := .scanning, repos := [],
                 logs := s0.logs ++ (loadCache s0.storage now frame).logs
                   ++ [LogEvent.scanStarted frame false] }, StartOutcome.requestIssued)

/-- The resumption of `handleScan` after `await fetchTrendingRepos`
returns successfully (`src/App.tsx` lines 110-119): the stale-response
guard discards the result when the active-window pointer no longer
equals the window this request was issued for; otherwise the list is
displayed, cached and the status set to COMPLETE. -/
def scanComplete (frame : TimeFrame) (results : List Repo) (now : Int)
    (s : AppState) : AppState :=
  if s.activeTab ≠ frame then s
  else
    let s1 := { s with repos := results }
    let s2 := saveCache frame results now s1
    { s2 with status := .complete,
              logs := s2.logs ++ [LogEvent.scanCompleted frame results.length] }

/-- The resumption of `handleScan` after the fetch rejects
(`src/App.tsx` lines 120-134).  The guard discards stale errors; an
active error sets the status, logs, and then reads the raw cache blob
with an unguarded `JSON.parse` — the boolean component records whether
that parse threw out of the handler.  A parseable blob is displayed
regardless of freshness (a missing `data` member would put `undefined`
into the list state; the model collapses it to the empty list). -/
def scanFail (frame : TimeFrame) (s : AppState) : AppState × Bool :=
  if s.activeTab ≠ frame then (s, false)
  else
    let s1 := { s with status := .error, logs := s.logs ++ [LogEvent.scanFailed frame] }
    match s1.storage.cacheGet frame with
    | none => (s1, false)
    | some .corrupt => (s1, true)
    | some (.parsed data ts) =>
      ({ s1 with repos := data.getD [], lastUpdated := ts,
                 logs := s1.logs ++ [LogEvent.staleRecovered] }, false)

/-- `toggleFavorite` from `src/App.tsx` (lines 164-180), the pure list
update: an already-present name is removed (every record carrying it),
an absent one appends the full record. -/
def toggleFavorite (repo : Repo) (favs : List Repo) : List Repo :=
  if favs.any (fun f => f.name == repo.name) then
    favs.filter (fun f => !(f.name == repo.name))
  else
    favs ++ [repo]

/-- `toggleFavorite` together with its synchronous
`localStorage.setItem` persistence of the entire new set. -/
def toggleFavoriteS (repo : Repo) (favs : List Repo) (st : Storage) :
    List Repo × Storage :=
  let newFavs := toggleFavorite repo favs
  (newFavs, { st with favVault := some (.records newFavs) })

/-- The favorites branch of the initial-load effect (`src/App.tsx`
lines 183-204): result is the favorites state and whether the stored
blob was removed.  A missing key or a parse failure leaves the initial
empty state; a non-empty array whose first element is a plain string is
the legacy shape and is removed from storage without being loaded;
anything else is loaded as-is. -/
def loadFavorites : Option FavBlob → List Repo × Bool
  | none => ([], false)
  | some .corrupt => ([], false)
  | some (.legacyNames []) => ([], false)
  | some (.legacyNames (_ :: _)) => ([], true)
  | some (.records rs) => (rs, false)

/-- Outcome of the metadata request `GET api.github.com/repos/<name>`
for a given normalized name, as discriminated by `fetchRepoDetails` in
`src/unnamed/part_003` (lines 368-402). -/
inductive FetchOutcome
  | notFound
  | rateLimited
  | otherFailure
  | netError
  | success (pushedAt : Option Int) (archived : Bool) (stars : Nat) (lang : Option Str)
deriving DecidableEq

/-- The environment: what the metadata endpoint answers for each
normalized name during one pipeline run. -/
abbrev Network := Str → FetchOutcome

/-- The partial record built by `fetchRepoDetails`; a field is `none`
when the corresponding key is absent from the returned object, so the
spread `...details` does not touch it. -/
structure RepoDetails where
  lastPushedAt : Option Int := none
  isArchived : Option Bool := none
  starsCount : Option Nat := none
  language : Option Str := none
  isRateLimited : Option Bool := none
deriving DecidableEq

/-- `fetchRepoDetails` from `src/unnamed/part_003` (lines 368-402):
HTTP 404 yields `null`; HTTP 403 or 429 yields the bare rate-limited
flag; any other non-ok status yields `null`; a thrown network error
yields the bare rate-limited flag; success yields the four metadata
fields plus an explicit false flag. -/
def fetchRepoDetails : FetchOutcome → Option RepoDetails
  | .notFound => none
  | .rateLimited => some { isRateLimited := some true }
  | .otherFailure => none
  | .netError => some { isRateLimited := some true }
  | .success p a st l =>
    some { lastPushedAt := p, isArchived := some a, starsCount := some st,
           language := l, isRateLimited := some false }

/-- A raw candidate record proposed by the LLM, after tolerant JSON
parsing; an absent or empty `name` is the falsy case skipped by
`if (!repo.name) continue`. -/
structure Candidate where
  name : Str
  url : Str := []
  description : Str := []
  starsTrend : Str := []
  tags : List Str := []
deriving DecidableEq

/-- The characters of the URL scheme-and-host pattern with the `s`
present, matched by the anchored regex of the source. -/
def urlPatHttps : Str :=
  ['h', 't', 't', 'p', 's', ':', '/', '/', 'g', 'i', 't', 'h', 'u', 'b',
   '.', 'c', 'o', 'm', '/']

/-- The characters of the URL scheme-and-host pattern without the `s`. -/
def urlPatHttp : Str :=
  ['h', 't', 't', 'p', ':', '/', '/', 'g', 'i', 't', 'h', 'u', 'b',
   '.', 'c', 'o', 'm', '/']

/-- One application of `replace(regex-for-leading-github-url, empty)`:
remove the leading pattern when present (the two alternatives of
`https?` cannot both match). -/
def stripUrlPat (s : Str) : Str :=
  if urlPatHttps.isPrefixOf s then s.drop urlPatHttps.length
  else if urlPatHttp.isPrefixOf s then s.drop urlPatHttp.length
  else s

/-- The characters of the `.git` ending. -/
def gitEnding : Str := ['.', 'g', 'i', 't']

/-- One application of `replace(regex-for-trailing-dot-git, empty)`. -/
def stripGitEnding (s : Str) : Str :=
  if gitEnding.isSuffixOf s then s.take (s.length - 4) else s

/-- JavaScript `String.prototype.trim`: drop whitespace from both
ends. -/
def trimEnds (s : Str) : Str :=
  ((s.dropWhile Char.isWhitespace).reverse.dropWhile Char.isWhitespace).reverse

/-- The `if (cleanName.endsWith(slash)) cleanName = cleanName.slice(0, -1)`
step. -/
def stripTrailingSlash (s : Str) : Str :=
  if s.getLast? = some '/' then s.dropLast else s

/-- The name normalization of the validation pipeline
(`src/unnamed/part_003` lines 513-521, identically in
`src/services/deepseekService.ts` lines 129-132): strip a leading
GitHub URL pattern, strip a trailing `.git`, trim whitespace, strip a
trailing slash. -/
def cleanName (s : Str) : Str :=
  stripTrailingSlash (trimEnds (stripGitEnding (stripUrlPat s)))

/-- The `owner/repo` shape test `cleanName.includes(slash)`. -/
def containsSlash (s : Str) : Bool := s.contains '/'

/-- The spread `{...repo, name: cleanName, ...details}`: candidate
fields, the normalized name, then every key present on the details
object overriding (the raw candidate carries none of the enrichment
keys). -/
def mergeCandidate (c : Candidate) (clean : Str) (d : RepoDetails) : Repo :=
  { name := clean, url := c.url, description := c.description,
    starsTrend := c.starsTrend, tags := c.tags,
    lastPushedAt := d.lastPushedAt, isArchived := d.isArchived,
    starsCount := d.starsCount, language := d.language,
    isRateLimited := d.isRateLimited }

/-- One loop iteration of `fetchTrendingRepos` (`src/unnamed/part_003`
lines 506-537) without the target-count break: skip a falsy name, skip
a normalized name lacking a slash, query the metadata endpoint, and on
a non-null details object accept the merged record. -/
def enrichCandidate (net : Network) (c : Candidate) : Option Repo :=
  if c.name.isEmpty then none
  else if containsSlash (cleanName c.name) = false then none
  else
    match fetchRepoDetails (net (cleanName c.name)) with
    | none => none
    | some d => some (mergeCandidate c (cleanName c.name) d)

/-- The target count of valid entries (`TARGET_COUNT` in the source). -/
def targetCount : Nat := 10

/-- The candidate loop of `fetchTrendingRepos`: before examining each
candidate the accumulated list is checked against the target count. -/
def validateLoop (net : Network) : List Candidate → List Repo → List Repo
  | [], acc => acc
  | c :: rest, acc =>
    if targetCount ≤ acc.length then acc
    else
      match enrichCandidate net c with
      | none => validateLoop net rest acc
      | some r => validateLoop net rest (acc ++ [r])

/-- The accepted list produced by the validation pipeline from the raw
candidate list. -/
def validateCandidates (net : Network) (cands : List Candidate) : List Repo :=
  validateLoop net cands []

/-! Concrete values used by witnesses and counterexamples. -/

/-- A minimal repository record named `a/a`. -/
def repoA : Repo :=
  { name := ['a', '/', 'a'], url := [], description := [], starsTrend := [],
    tags := [] }

/-- A minimal repository record named `b/b`. -/
def repoB : Repo :=
  { name := ['b', '/', 'b'], url := [], description := [], starsTrend := [],
    tags := [] }

/-- A stored favorite named `a/b` with description `o`. -/
def favOld : Repo :=
  { name := ['a', '/', 'b'], url := [], description := ['o'],
    starsTrend := [], tags := [] }

/-- A freshly scanned record with the same name `a/b` but description
`n`. -/
def favNew : Repo :=
  { name := ['a', '/', 'b'], url := [], description := ['n'],
    starsTrend := [], tags := [] }

/-- The application state right after mount, before the initial scan. -/
def initState : AppState :=
  { activeTab := .d3, repos := [], status := .idle, lastUpdated := none,
    storage := {}, logs := [] }

/-- A non-forced scan for window 3d is issued on the fresh state, then a
forced refresh for the same window 3d is issued while it is in flight,
and the forced request completes first at time 2 with `[repoB]`. -/
def forcedDone : AppState :=
  scanComplete .d3 [repoB] 2
    ((scanStart .d3 true 1 ((scanStart .d3 false 0 initState).1)).1)

/-- Afterwards the superseded non-forced scan completes at time 3 with
`[repoA]`. -/
def afterStale : AppState :=
  scanComplete .d3 [repoA] 3 forcedDone

/-- A state whose active window is 7d. -/
def otherTabState : AppState :=
  { activeTab := .d7, repos := [], status := .scanning, lastUpdated := none,
    storage := {}, logs := [] }

/-- A scanning state for window 3d whose persisted 3d entry is
malformed. -/
def corruptState : AppState :=
  { activeTab := .d3, repos := [repoA], status := .scanning,
    lastUpdated := none, storage := { cache3d := some .corrupt }, logs := [] }

/-- A scanning state for window 7d with a stale persisted 7d entry. -/
def degradedState : AppState :=
  { activeTab := .d7, repos := [], status := .scanning, lastUpdated := none,
    storage := { cache7d := some (.parsed (some [repoA]) (some 1)) },
    logs := [] }

/-- Storage holding a 3d entry whose timestamp member is the falsy 0. -/
def zeroTsStorage : Storage :=
  { cache3d := some (.parsed (some []) (some 0)) }

/-- Storage holding a 7d entry with the stale timestamp 1. -/
def staleStorage : Storage :=
  { cache7d := some (.parsed (some []) (some 1)) }

/-- A candidate named `a/<c>` with no other fields. -/
def candOf (c : Char) : Candidate := { name := ['a', '/', c] }

/-- Ten candidates `a/0` through `a/9`. -/
def cands10 : List Candidate :=
  [candOf '0', candOf '1', candOf '2', candOf '3', candOf '4',
   candOf '5', candOf '6', candOf '7', candOf '8', candOf '9']

/-- The one name the metadata endpoint reports as not found. -/
def badName : Str := ['a', '/', '4']

/-- A network answering not-found for `a/4` and success (pushed at 0,
not archived, 5 stars, no language) for everything else. -/
def net10 : Network := fun s =>
  if s = badName then .notFound else .success (some 0) false 5 none

/-- The enriched record the pipeline builds for `a/<c>` under
`net10`. -/
def goodRepo (c : Char) : Repo :=
  { name := ['a', '/', c], url := [], description := [], starsTrend := [],
    tags := [], lastPushedAt := some 0, isArchived := some false,
    starsCount := some 5, language := none, isRateLimited := some false }

/-- The nine survivors of `cands10` under `net10`, in original order. -/
def repos9 : List Repo :=
  [goodRepo '0', goodRepo '1', goodRepo '2', goodRepo '3',
   goodRepo '5', goodRepo '6', goodRepo '7', goodRepo '8', goodRepo '9']

/-- A network that is rate-limited on every name. -/
def rlNet : Network := fun _ => .rateLimited

/-- A plain candidate named `a/b`. -/
def candRL : Candidate := { name := ['a', '/', 'b'] }

/-- A candidate name carrying the URL pattern and the `.git` ending
around `x/y`. -/
def messyName : Str := urlPatHttps ++ ['x', '/', 'y'] ++ gitEnding

/-- The candidate carrying `messyName`. -/
def candMessy : Candidate := { name := messyName }

/-- The two legacy bare-name strings `a/b` and `c/d`. -/
def legacyPair : List Str := [['a', '/', 'b'], ['c', '/', 'd']]

/-! Helper lemmas. -/

/-- The candidate loop accumulates, in order, the survivors of the
remaining candidates until the target count is reached. -/
theorem validateLoop_characterization (net : Network) (cands : List Candidate) :
    ∀ acc : List Repo, validateLoop net cands acc =
      if targetCount ≤ acc.length then acc
      else acc ++ (cands.filterMap (enrichCandidate net)).take (targetCount - acc.length) := by
  induction cands with
  | nil =>
    intro acc
    simp only [validateLoop, List.filterMap_nil, List.take_nil, List.append_nil, ite_self]
  | cons c rest ih =>
    intro acc
    simp only [validateLoop, List.filterMap_cons]
    by_cases h : targetCount ≤ acc.length
    · simp [h]
    · rw [if_neg h]
      cases he : enrichCandidate net c with
      | none =>
        dsimp only
        rw [ih acc, if_neg h]
      | some r =>
        dsimp only
        rw [ih (acc ++ [r])]
        by_cases h2 : targetCount ≤ (acc ++ [r]).length
        · rw [if_pos h2]
          have hlen : (acc ++ [r]).length = acc.length + 1 := by simp
          have h1 : targetCount - acc.length = 1 := by omega
          rw [h1, List.take_succ_cons, List.take_zero, if_neg h]
        · rw [if_neg h2]
          have hlen : (acc ++ [r]).length = acc.length + 1 := by simp
          have h1 : targetCount - acc.length = (targetCount - (acc.length + 1)) + 1 := by
            omega
          rw [hlen, h1, List.take_succ_cons, List.append_assoc, List.singleton_append,
            if_neg h]

/-- The accepted list is the first `targetCount` elements of the full
survivor list. -/
theorem validateCandidates_take (net : Network) (cands : List Candidate) :
    validateCandidates net cands
      = (cands.filterMap (enrichCandidate net)).take targetCount := by
  rw [validateCandidates, validateLoop_characterization]
  simp [targetCount]

/-! Claim theorems. -/

/-- Claim C4: the accepted list of the validation pipeline consists of
the survivors of the raw candidate list in their original relative
order, truncated at the target count of ten; a candidate whose metadata
lookup returns not-found contributes nothing (and hence does not count
toward the target), so in particular whenever at most ten candidates
survive — for instance nine successes out of ten — the accepted list is
exactly the survivor list in original order. -/
theorem validate_order_and_discard (net : Network) (cands : List Candidate) :
    validateCandidates net cands
      = (cands.filterMap (enrichCandidate net)).take targetCount ∧
    (validateCandidates net cands).Sublist (cands.filterMap (enrichCandidate net)) ∧
    ((cands.filterMap (enrichCandidate net)).length ≤ targetCount →
      validateCandidates net cands = cands.filterMap (enrichCandidate net)) ∧
    (∀ c : Candidate, net (cleanName c.name) = .notFound →
      enrichCandidate net c = none) := by
  refine ⟨validateCandidates_take net cands, ?_, ?_, ?_⟩
  · rw [validateCandidates_take]
    exact List.take_sublist _ _
  · intro hlen
    rw [validateCandidates_take]
    exact List.take_of_length_le hlen
  · intro c hc
    unfold enrichCandidate
    split_ifs with h1 h2
    · rfl
    · rfl
    · rw [hc]
      rfl

/-- Witness for C4: under `net10` one of the ten candidates of
`cands10` is not found and the other nine succeed; the accepted list is
exactly those nine enriched records in original order. -/
theorem validate_order_and_discard_witness :
    (cands10.filterMap (enrichCandidate net10)).length ≤ targetCount ∧
    validateCandidates net10 cands10 = repos9 :=
  ⟨by decide,
   ((validate_order_and_discard net10 cands10).2.2.1 (by decide)).trans (by decide)⟩

/-- Claim C5: a candidate whose metadata lookup is rate-limited or
forbidden (HTTP 403/429) is accepted into the result list, marked
rate-limited, and none of the freshness metadata fields
(`lastPushedAt`, `isArchived`, `starsCount`, `language`) is merged into
it. -/
theorem rateLimited_candidate_accepted (net : Network) (c : Candidate)
    (hname : c.name.isEmpty = false)
    (hslash : containsSlash (cleanName c.name) = true)
    (hnet : net (cleanName c.name) = .rateLimited) :
    validateCandidates net [c]
      = [mergeCandidate c (cleanName c.name) { isRateLimited := some true }] ∧
    ∀ r, enrichCandidate net c = some r →
      r.isRateLimited = some true ∧ r.lastPushedAt = none ∧
      r.isArchived = none ∧ r.starsCount = none ∧ r.language = none := by
  have he : enrichCandidate net c
      = some (mergeCandidate c (cleanName c.name) { isRateLimited := some true }) := by
    simp [enrichCandidate, hname, hslash, hnet, fetchRepoDetails]
  constructor
  · simp [validateCandidates, validateLoop, he, targetCount]
  · intro r hr
    rw [he] at hr
    cases hr
    simp [mergeCandidate]

/-- Witness for C5 under the everywhere-rate-limited network. -/
theorem rateLimited_candidate_accepted_witness :
    validateCandidates rlNet [candRL]
      = [mergeCandidate candRL (cleanName candRL.name) { isRateLimited := some true }] :=
  (rateLimited_candidate_accepted rlNet candRL (by decide) (by decide) (by decide)).1

/-- Claim C8: the pipeline normalizes each candidate name with
`cleanName` (strip a leading GitHub URL pattern, a trailing `.git`, and
a trailing slash), discards the candidate at the normalization stage
exactly when the normalized name contains no slash, and every accepted
record carries the normalized name; the closed conjuncts exercise each
strip and the shape test. -/
theorem normalization_and_shape (net : Network) (c : Candidate)
    (hname : c.name.isEmpty = false) :
    (containsSlash (cleanName c.name) = false → enrichCandidate net c = none) ∧
    (containsSlash (cleanName c.name) = true →
      (enrichCandidate net c = none ↔
        fetchRepoDetails (net (cleanName c.name)) = none)) ∧
    (∀ r, enrichCandidate net c = some r → r.name = cleanName c.name) ∧
    cleanName messyName = ['x', '/', 'y'] ∧
    cleanName ['x', '/', 'y', '/'] = ['x', '/', 'y'] ∧
    containsSlash (cleanName ['x', 'y']) = false := by
  refine ⟨?_, ?_, ?_, by decide, by decide, by decide⟩
  · intro hs
    simp [enrichCandidate, hname, hs]
  · intro hs
    simp only [enrichCandidate, hname, hs, Bool.false_eq_true, if_false,
      Bool.true_eq_false, if_neg]
    cases hf : fetchRepoDetails (net (cleanName c.name)) with
    | none => simp [hf]
    | some d => simp [hf]
  · intro r hr
    cases h1 : c.name.isEmpty with
    | true => simp [enrichCandidate, h1] at hr
    | false =>
      cases h2 : containsSlash (cleanName c.name) with
      | false => simp [enrichCandidate, h1, h2] at hr
      | true =>
        cases hf : fetchRepoDetails (net (cleanName c.name)) with
        | none => simp [enrichCandidate, h1, h2, hf] at hr
        | some d =>
          simp [enrichCandidate, h1, h2, hf] at hr
          subst hr
          simp [mergeCandidate]

/-- Witness for C8: the messy candidate name is normalized to `x/y`. -/
theorem normalization_and_shape_witness :
    cleanName messyName = ['x', '/', 'y'] :=
  (normalization_and_shape (fun _ => FetchOutcome.notFound) candMessy
    (by decide)).2.2.2.1

/-- Claim C2 (amended): `getLatestCheckpoint` returns 17:00 of the
previous day before 05:00, 05:00 of the current day between 05:00 and
17:00, and 17:00 of the current day afterwards; in every case the
returned timestamp is the most recent boundary at or before `now` —
not strictly before it, since at an exact boundary instant the function
returns that boundary itself. -/
theorem getLatestCheckpoint_correct (now : Int) :
    (now % msPerDay < 5 * msPerHour →
      getLatestCheckpoint now
        = (now / msPerDay) * msPerDay - msPerDay + 17 * msPerHour) ∧
    (5 * msPerHour ≤ now % msPerDay → now % msPerDay < 17 * msPerHour →
      getLatestCheckpoint now = (now / msPerDay) * msPerDay + 5 * msPerHour) ∧
    (17 * msPerHour ≤ now % msPerDay →
      getLatestCheckpoint now = (now / msPerDay) * msPerDay + 17 * msPerHour) ∧
    IsCheckpoint (getLatestCheckpoint now) ∧
    getLatestCheckpoint now ≤ now ∧
    ∀ b : Int, IsCheckpoint b → b ≤ now → b ≤ getLatestCheckpoint now := by
  simp only [getLatestCheckpoint, IsCheckpoint, msPerDay, msPerHour]
  refine ⟨?_, ?_, ?_, ?_, ?_, ?_⟩
  · intro h
    split_ifs <;> omega
  · intro h1 h2
    split_ifs <;> omega
  · intro h
    split_ifs <;> omega
  · split_ifs <;> omega
  · split_ifs <;> omega
  · intro b hb hble
    split_ifs <;> omega

/-- Witness for the amended checkpoint theorem at noon of day three. -/
theorem getLatestCheckpoint_correct_witness :
    getLatestCheckpoint (3 * msPerDay + 12 * msPerHour)
      = 3 * msPerDay + 5 * msPerHour :=
  ((getLatestCheckpoint_correct (3 * msPerDay + 12 * msPerHour)).2.1
    (by decide) (by decide)).trans (by decide)

/-- Claim C2 counterexample: at exactly 05:00 of day zero the function
returns 05:00 itself, which is not strictly before `now`; the most
recent boundary strictly before that instant is 17:00 of the previous
day. -/
theorem getLatestCheckpoint_at_boundary :
    getLatestCheckpoint (5 * msPerHour) = 5 * msPerHour ∧
    ¬ getLatestCheckpoint (5 * msPerHour) < 5 * msPerHour ∧
    IsCheckpoint (17 * msPerHour - msPerDay) ∧
    17 * msPerHour - msPerDay < 5 * msPerHour := by decide

/-- Claim C10: the status-tier derivation is a pure total function of
the archived flag, the rate-limited flag, the last-push timestamp and
`now`, assigning by priority archived, then rate-limited, then missing
timestamp, and otherwise bucketing the floor number of days since last
push into the ordered bands of the spec; the record-level wrapper reads
the two flags with JavaScript truthiness. -/
theorem getStatusInfo_matches_bands (archived rateLimited : Bool)
    (lastPushedAt : Option Int) (now : Int) :
    getStatusInfo archived rateLimited lastPushedAt now
      = specStatusTier archived rateLimited lastPushedAt now ∧
    ∀ repo : Repo, getRepoStatus repo now
      = specStatusTier (truthy repo.isArchived) (truthy repo.isRateLimited)
          repo.lastPushedAt now := by
  have key : ∀ (a rl : Bool) (lp : Option Int),
      getStatusInfo a rl lp now = specStatusTier a rl lp now := by
    intro a rl lp
    cases a with
    | true => rfl
    | false =>
      cases rl with
      | true => rfl
      | false =>
        cases lp with
        | none => rfl
        | some t =>
          simp only [getStatusInfo, specStatusTier, msPerDay,
            Bool.false_eq_true, if_false]
          split_ifs <;> first | rfl | omega
  exact ⟨key archived rateLimited lastPushedAt, fun repo => key _ _ _⟩

/-- Claim C3 (amended): `loadCache` returns a stored pair only when the
blob parsed with both members present and the timestamp at least the
latest checkpoint; the storage is never written, so a stale entry is
ignored but not deleted; a stale entry yields `null` with the expiry
logged — except that a stored timestamp of exactly 0 is already
rejected by the falsy-member check, silently. -/
theorem loadCache_freshness (storage : Storage) (now : Int) (frame : TimeFrame) :
    (∀ d ts, (loadCache storage now frame).result = some (d, ts) →
      storage.cacheGet frame = some (.parsed (some d) (some ts)) ∧
      getLatestCheckpoint now ≤ ts) ∧
    (loadCache storage now frame).storageAfter = storage ∧
    (∀ d ts, storage.cacheGet frame = some (.parsed (some d) (some ts)) →
      ts < getLatestCheckpoint now →
      (loadCache storage now frame).result = none ∧
      (ts ≠ 0 → (loadCache storage now frame).logs = [LogEvent.cacheExpired ts])) := by
  cases hget : storage.cacheGet frame with
  | none => simp [loadCache, hget]
  | some blob =>
    cases blob with
    | corrupt => simp [loadCache, hget]
    | parsed data timestamp =>
      cases data with
      | none => simp [loadCache, hget]
      | some d0 =>
        cases timestamp with
        | none => simp [loadCache, hget]
        | some ts0 =>
          by_cases h0 : ts0 = 0
          · subst h0
            refine ⟨?_, by simp [loadCache, hget], ?_⟩
            · intro d ts hr
              simp [loadCache, hget] at hr
            · intro d ts heq hlt
              cases heq
              exact ⟨by simp [loadCache, hget], fun hne => absurd rfl hne⟩
          · by_cases hstale : ts0 < getLatestCheckpoint now
            · refine ⟨?_, by simp [loadCache, hget, h0, hstale], ?_⟩
              · intro d ts hr
                simp [loadCache, hget, h0, hstale] at hr
              · intro d ts heq hlt
                cases heq
                exact ⟨by simp [loadCache, hget, h0, hstale],
                  fun _ => by simp [loadCache, hget, h0, hstale]⟩
            · refine ⟨?_, by simp [loadCache, hget, h0, hstale], ?_⟩
              · intro d ts hr
                simp [loadCache, hget, h0, hstale] at hr
                obtain ⟨hd, hts⟩ := hr
                subst hd
                subst hts
                exact ⟨rfl, by omega⟩
              · intro d ts heq hlt
                cases heq
                exact absurd hlt hstale

/-- Witness for C3: a stale 7d entry (timestamp 1, checkpoint at noon
of day one) yields a miss and the expiry log line, while the storage
retains the entry. -/
theorem loadCache_freshness_witness :
    (loadCache staleStorage (msPerDay + 12 * msPerHour) TimeFrame.d7).result = none ∧
    (loadCache staleStorage (msPerDay + 12 * msPerHour) TimeFrame.d7).logs
      = [LogEvent.cacheExpired 1] := by
  have h := (loadCache_freshness staleStorage (msPerDay + 12 * msPerHour)
    TimeFrame.d7).2.2 [] 1 (by decide) (by decide)
  exact ⟨h.1, h.2 (by decide)⟩

/-- Claim C3 counterexample: a stored entry with the falsy timestamp 0,
which is below the checkpoint at noon of day one, is ignored without
any log line, refuting the universally stated "ignored and logged". -/
theorem loadCache_zero_ts_unlogged :
    (0 : Int) < getLatestCheckpoint (msPerDay + 12 * msPerHour) ∧
    (loadCache zeroTsStorage (msPerDay + 12 * msPerHour) TimeFrame.d3).result = none ∧
    (loadCache zeroTsStorage (msPerDay + 12 * msPerHour) TimeFrame.d3).logs = [] := by
  decide

/-- Claim C1 (amended): a scan completion — successful or failed —
observed after the active-window pointer was reassigned to a different
window performs no state change at all: no displayed-list update, no
cache write, no status change.  The guard compares only the window
identity, so it does not protect a forced refresh from a prior
in-flight scan for the same window. -/
theorem scan_stale_guard (frame : TimeFrame) (results : List Repo) (now : Int)
    (s : AppState) (h : s.activeTab ≠ frame) :
    scanComplete frame results now s = s ∧ scanFail frame s = (s, false) := by
  constructor
  · simp [scanComplete, h]
  · simp [scanFail, h]

/-- Witness for C1: a completion for window 3d arriving while the
pointer is at 7d changes nothing. -/
theorem scan_stale_guard_witness :
    scanComplete TimeFrame.d3 [repoA] 5 otherTabState = otherTabState ∧
    scanFail TimeFrame.d3 otherTabState = (otherTabState, false) :=
  scan_stale_guard TimeFrame.d3 [repoA] 5 otherTabState (by decide)

/-- Claim C1 counterexample: a non-forced scan for window 3d is in
flight when a forced refresh for the same window completes with
`[repoB]`; when the superseded scan later completes with `[repoA]`,
the guard passes — the pointer still equals 3d — and the stale result
overwrites both the displayed list and the cache entry of the forced
refresh. -/
theorem stale_scan_overwrites_forced :
    forcedDone.repos = [repoB] ∧
    forcedDone.storage.cache3d = some (.parsed (some [repoB]) (some 2)) ∧
    afterStale.repos = [repoA] ∧
    afterStale.storage.cache3d = some (.parsed (some [repoA]) (some 3)) ∧
    repoA ≠ repoB := by decide

/-- Claim C7 (amended): when a scan for the active window fails, the
status becomes error and any parseable persisted entry for that window
is loaded and displayed regardless of freshness; but a malformed
persisted entry makes the unguarded `JSON.parse` of the recovery path
throw out of the handler (after the error status was set), rather than
being swallowed as absence. -/
theorem scanFail_recovery (frame : TimeFrame) (s : AppState)
    (h : s.activeTab = frame) :
    (scanFail frame s).1.status = .error ∧
    (∀ d ts, s.storage.cacheGet frame = some (.parsed (some d) ts) →
      (scanFail frame s).1.repos = d ∧ (scanFail frame s).1.lastUpdated = ts ∧
      (scanFail frame s).2 = false) ∧
    (s.storage.cacheGet frame = none →
      (scanFail frame s).1.repos = s.repos ∧ (scanFail frame s).2 = false) ∧
    (s.storage.cacheGet frame = some .corrupt →
      (scanFail frame s).1.repos = s.repos ∧ (scanFail frame s).2 = true) := by
  have hg : (s.activeTab ≠ frame) = False := by simp [h]
  refine ⟨?_, ?_, ?_, ?_⟩
  · cases hget : s.storage.cacheGet frame with
    | none => simp [scanFail, hg, hget]
    | some blob => cases blob <;> simp [scanFail, hg, hget]
  · intro d ts heq
    simp [scanFail, hg, heq]
  · intro heq
    simp [scanFail, hg, heq]
  · intro heq
    simp [scanFail, hg, heq]

/-- Witness for C7: a failure for the active window 7d surfaces the
error status and recovers the stale persisted entry. -/
theorem scanFail_recovery_witness :
    (scanFail TimeFrame.d7 degradedState).1.status = .error ∧
    (scanFail TimeFrame.d7 degradedState).1.repos = [repoA] := by
  have h := scanFail_recovery TimeFrame.d7 degradedState (by decide)
  exact ⟨h.1, (h.2.1 [repoA] (some 1) (by decide)).1⟩

/-- Claim C7 counterexample: with a malformed persisted entry for the
active window, the error path sets the error status and then the
unguarded `JSON.parse` throws — the corruption is not swallowed and
treated as absence. -/
theorem scanFail_corrupt_throws :
    (scanFail TimeFrame.d3 corruptState).2 = true ∧
    (scanFail TimeFrame.d3 corruptState).1.status = AppStatus.error ∧
    (scanFail TimeFrame.d3 corruptState).1.repos = corruptState.repos := by
  decide

/-- Claim C6 (amended): every toggle synchronously persists the entire
new set; toggling twice with the same record restores the list exactly
when no stored record carries that name, while if the name is present
the double toggle yields the original list with every record of that
name removed and the toggled record appended — so the original contents
are restored only when the stored record was the toggled record itself
in the last position. -/
theorem toggleFavorite_twice (repo : Repo) (favs : List Repo) :
    (favs.any (fun f => f.name == repo.name) = false →
      toggleFavorite repo (toggleFavorite repo favs) = favs) ∧
    (favs.any (fun f => f.name == repo.name) = true →
      toggleFavorite repo (toggleFavorite repo favs)
        = favs.filter (fun f => !(f.name == repo.name)) ++ [repo]) ∧
    ∀ st : Storage, toggleFavoriteS repo favs st
      = (toggleFavorite repo favs,
         { st with favVault := some (.records (toggleFavorite repo favs)) }) := by
  refine ⟨?_, ?_, fun st => rfl⟩
  · intro hab
    have hkeep : favs.filter (fun f => !(f.name == repo.name)) = favs := by
      apply List.filter_eq_self.mpr
      intro f hf
      have hfn := List.any_eq_false.mp hab f hf
      simp only [Bool.not_eq_true] at hfn
      simp [hfn]
    have h1 : toggleFavorite repo favs = favs ++ [repo] := by
      simp [toggleFavorite, hab]
    rw [h1]
    simp [toggleFavorite, List.any_append, List.filter_append, hkeep]
  · intro hab
    have h1 : toggleFavorite repo favs
        = favs.filter (fun f => !(f.name == repo.name)) := by
      simp [toggleFavorite, hab]
    rw [h1]
    have hnone : (favs.filter (fun f => !(f.name == repo.name))).any
        (fun f => f.name == repo.name) = false := by
      apply List.any_eq_false.mpr
      intro f hf
      have h2 := (List.mem_filter.mp hf).2
      simpa using h2
    simp [toggleFavorite, hnone]

/-- Witness for C6: double-toggling a record on the empty vault and
double-toggling the stored record of a singleton vault both restore the
original list. -/
theorem toggleFavorite_twice_witness :
    toggleFavorite repoA (toggleFavorite repoA []) = [] ∧
    toggleFavorite favOld (toggleFavorite favOld [favOld]) = [favOld] :=
  ⟨(toggleFavorite_twice repoA []).1 (by decide),
   ((toggleFavorite_twice favOld [favOld]).2.1 (by decide)).trans (by decide)⟩

/-- Claim C6 counterexample: toggling a record whose name matches a
stored favorite of different contents and toggling again with the same
record leaves the vault holding the new record, not the original one —
membership by name is restored but the contents are not. -/
theorem toggle_twice_not_restoring :
    toggleFavorite favNew (toggleFavorite favNew [favOld]) = [favNew] ∧
    favNew ≠ favOld := by decide

/-- Claim C9: a persisted favorites blob in the legacy bare-name-string
shape is removed from storage on start and the favorites state loads as
the empty set, not as malformed records — both for the concrete legacy
pair `a/b`, `c/d` and for every non-empty list of bare names. -/
theorem legacy_favorites_discarded :
    loadFavorites (some (.legacyNames legacyPair)) = ([], true) ∧
    ∀ n ns, loadFavorites (some (.legacyNames (n :: ns))) = ([], true) :=
  ⟨rfl, fun _ _ => rfl⟩
